import Mathlib

/-!
Verification development for the Sodexo-Nikos sales dashboard pipeline.
The definitions below are a shallow embedding of the two Python program
variants (`sales_dashboard.py` and `dashboard.py`): spreadsheet cells are
an inductive `Cell` type, pandas numeric coercion is `to_num`, dates are
integer day counts since 1970-01-01 (a Thursday), and each extraction or
aggregation step is a Lean function mirroring the corresponding Python
function.  Monetary amounts are modelled as exact rationals.
-/

/-- Whitespace test used by Python `str.strip` (space, tab, newline,
carriage return, vertical tab, form feed). -/
def isWS (c : Char) : Bool :=
  c = ' ' ∨ c = '\t' ∨ c = '\n' ∨ c = '\r' ∨ c = Char.ofNat 11 ∨ c = Char.ofNat 12

/-- ASCII lower-casing of one character, as in Python `str.lower` for the
ASCII keys and labels the sheets use. -/
def lowerCh (c : Char) : Char :=
  if 65 ≤ c.toNat ∧ c.toNat ≤ 90 then Char.ofNat (c.toNat + 32) else c

/-- Digit character for `n % 10`, used to model `strftime` zero padding. -/
def digitCh (n : ℕ) : Char := Char.ofNat (48 + n % 10)

/-- Decimal digit test on a character. -/
def isDigitCh (c : Char) : Bool := 48 ≤ c.toNat ∧ c.toNat ≤ 57

/-- Numeric value of a digit character. -/
def digitVal (c : Char) : ℕ := c.toNat - 48

/-- Drop trailing characters satisfying `isWS` (the right half of
Python `str.strip`). -/
def dropTrail : List Char → List Char
  | [] => []
  | c :: rest =>
    match dropTrail rest with
    | [] => if isWS c then [] else [c]
    | r => c :: r

/-- Both-ends whitespace trim on character lists: Python `str.strip`. -/
def trimChars (l : List Char) : List Char := dropTrail (l.dropWhile isWS)

/-- Python `str.strip` on strings. -/
def strTrim (s : String) : String := String.mk (trimChars s.data)

/-- Python `str.lower` on strings (ASCII). -/
def strLower (s : String) : String := String.mk (s.data.map lowerCh)

/-- Character-list begins-with test. -/
def startsWithChars : List Char → List Char → Bool
  | _, [] => true
  | [], _ :: _ => false
  | a :: as, b :: bs => a = b && startsWithChars as bs

/-- Character-list substring test, modelling Python `needle in hay`. -/
def containsChars : List Char → List Char → Bool
  | [], needle => needle.isEmpty
  | h :: rest, needle => startsWithChars (h :: rest) needle || containsChars rest needle

/-- Python `needle in hay` on strings. -/
def containsStr (hay needle : String) : Bool := containsChars hay.data needle.data

/-- One spreadsheet cell: a number, a string, or an empty/NaN cell. -/
inductive Cell where
  | num (q : ℚ)
  | str (s : String)
  | blank
deriving DecidableEq, Repr

/-- Python `str(cell)`: NaN cells print as "nan". -/
def cellToString (c : Cell) : String :=
  match c with
  | .num q => toString q
  | .str s => s
  | .blank => "nan"

/-- The key read from column 0 by the section extractors:
`str(row[col0]).strip() if pd.notna(row[col0]) else ""`. -/
def cellKey (c : Cell) : String :=
  match c with
  | .blank => ""
  | c => strTrim (cellToString c)

/-- Value of a digit string read left to right. -/
def digitsToNat (cs : List Char) : ℕ := cs.foldl (fun a c => a * 10 + digitVal c) 0

/-- Decimal numeral parser modelling `pd.to_numeric(errors="coerce")` on the
string cells of these sheets: optional sign, integer part, optional
fraction part, at least one digit, nothing else. -/
def parseDecChars (cs : List Char) : Option ℚ :=
  let sgnRest : ℚ × List Char :=
    match cs with
    | '-' :: r => (-1, r)
    | '+' :: r => (1, r)
    | r => (1, r)
  let sgn := sgnRest.1
  let rest := sgnRest.2
  let ip := rest.takeWhile isDigitCh
  let rest2 := rest.dropWhile isDigitCh
  match rest2 with
  | [] => if ip.isEmpty then none else some (sgn * (digitsToNat ip : ℚ))
  | '.' :: fp' =>
    let fp := fp'.takeWhile isDigitCh
    let rest3 := fp'.dropWhile isDigitCh
    if rest3.isEmpty ∧ ¬(ip.isEmpty ∧ fp.isEmpty) then
      some (sgn * ((digitsToNat ip : ℚ) + (digitsToNat fp : ℚ) / (10 : ℚ) ^ fp.length))
    else none
  | _ => none

/-- `to_num` from `sales_dashboard.py`: `pd.to_numeric(x, errors="coerce")`,
returning `none` for NaN results. -/
def to_num (c : Cell) : Option ℚ :=
  match c with
  | .num q => some q
  | .blank => none
  | .str s => parseDecChars (trimChars s.data)

/-- Days since 1970-01-01 of a proleptic-Gregorian civil date
(`days_from_civil`); 1970-01-01 itself was a Thursday. -/
def epochDays (y m d : ℤ) : ℤ :=
  let y' := if m ≤ 2 then y - 1 else y
  let era := Int.fdiv y' 400
  let yoe := y' - era * 400
  let mp := if 2 < m then m - 3 else m + 9
  let doy := (153 * mp + 2) / 5 + d - 1
  let doe := yoe * 365 + yoe / 4 - yoe / 100 + doy
  era * 146097 + doe - 719468

/-- The calendar year containing epoch day `z` (`civil_from_days`,
year component): models `datetime.year` of the embedded day count. -/
def yearOfDays (z : ℤ) : ℤ :=
  let z' := z + 719468
  let era := Int.fdiv z' 146097
  let doe := z' - era * 146097
  let yoe := (doe - doe / 1460 + doe / 36524 - doe / 146096) / 365
  let y := yoe + era * 400
  let doy := doe - (365 * yoe + yoe / 4 - yoe / 100)
  let mp := (5 * doy + 2) / 153
  let m := mp + (if mp < 10 then 3 else -9)
  if m ≤ 2 then y + 1 else y

/-- Python `date.weekday()`: Monday = 0 … Sunday = 6; epoch day 0 is a
Thursday, hence weekday 3. -/
def pyWeekday (z : ℤ) : ℤ := (z + 3) % 7

/-- `date_obj - timedelta(days=(date_obj.weekday() - 3) % 7)`: the Thursday
on or before day `z`. -/
def week_start_of (z : ℤ) : ℤ := z - (pyWeekday z - 3) % 7

/-- Result of `get_sales_week`, together with the `Week_End` column that
`load_workbook` derives as `Week_Start + timedelta(days=6)`. -/
structure SalesWeek where
  year : ℤ
  weekNum : ℤ
  weekStart : ℤ
  weekEnd : ℤ
deriving DecidableEq, Repr

/-- `get_sales_week` from `sales_dashboard.py` (lines 75-91), with the
`weekEnd` field carrying `Week_Start + 6` from `load_workbook` line 303. -/
def get_sales_week (z : ℤ) : SalesWeek :=
  let weekStart := week_start_of z
  let year := yearOfDays weekStart
  let jan1 := epochDays year 1 1
  let firstThursday := jan1 - (pyWeekday jan1 - 3) % 7
  if weekStart < firstThursday then
    ⟨year - 1, 52, weekStart, weekStart + 6⟩
  else
    ⟨year, Int.fdiv (weekStart - firstThursday) 7 + 1, weekStart, weekStart + 6⟩

/-- Lookup in a Python-dict model (association list with unique keys). -/
def dget {α : Type} : List (String × α) → String → Option α
  | [], _ => none
  | (k, v) :: rest, key => if k = key then some v else dget rest key

/-- Python-dict insertion: overwrite the value in place when the key is
present, otherwise append (insertion order preserved). -/
def dinsert {α : Type} (m : List (String × α)) (key : String) (v : α) : List (String × α) :=
  if m.any (fun p => p.1 = key) then
    m.map (fun p => if p.1 = key then (key, v) else p)
  else m ++ [(key, v)]

/-- Insert several key/value pairs in order (`{**m, **kvs}`). -/
def dinsertAll {α : Type} (m : List (String × α)) (kvs : List (String × α)) : List (String × α) :=
  kvs.foldl (fun acc p => dinsert acc p.1 p.2) m

/-- Loop body of `extract_financial_metrics`: walk the rows with the
`in_control_section` flag, stop at the tender/payment/day-part markers. -/
def finGo : List (List Cell) → Bool → List (String × ℚ) → List (String × ℚ)
  | [], _, m => m
  | r :: rest, inSec, m =>
    let k := cellKey (r.getD 0 Cell.blank)
    if k = "" then finGo rest inSec m
    else
      let kl := strLower k
      if containsStr kl "run financial control report" then finGo rest true m
      else if containsStr kl "tender summary" || containsStr kl "payment summary" ||
              containsStr kl "day part summary" then m
      else if inSec && !(kl = "name") then
        match to_num (r.getD 1 Cell.blank) with
        | some v =>
          let m1 := dinsert m k v
          let m2 := if containsStr kl "tax collected" then dinsert m1 "Sales Tax Collected" v else m1
          finGo rest inSec m2
        | none => finGo rest inSec m
      else finGo rest inSec m

/-- `extract_financial_metrics` from `sales_dashboard.py` (lines 120-153):
numeric key/value pairs of the financial-control section, with any
"tax collected" key mirrored into "Sales Tax Collected".  The sheet is
the raw grid; only the first two columns are read, so the `shape[1] < 2`
guard is subsumed by reading missing cells as blanks. -/
def extract_financial_metrics (sheet : List (List Cell)) : List (String × ℚ) :=
  finGo sheet false []

/-- The three payment buckets of `extract_payment_data`, all 0.0 unless
populated. -/
structure Payments where
  credit : ℚ
  cash : ℚ
  tax : ℚ
deriving DecidableEq, Repr

/-- Loop body of `extract_payment_data`: accumulate credit/cash amounts
inside the tender/payment section, stop at "day part". -/
def payGo : List (List Cell) → Bool → Payments → Payments
  | [], _, p => p
  | r :: rest, inSec, p =>
    let k := cellKey (r.getD 0 Cell.blank)
    if k = "" then payGo rest inSec p
    else
      let kl := strLower k
      if containsStr kl "tender summary" || containsStr kl "payment summary" then
        payGo rest true p
      else if inSec && containsStr kl "day part" then p
      else if inSec && !(kl = "type" || kl = "amount") then
        match to_num (r.getD 1 Cell.blank) with
        | some v =>
          if containsStr kl "credit card" || containsStr kl "credit" then
            payGo rest inSec { p with credit := p.credit + v }
          else if containsStr kl "cash" then
            payGo rest inSec { p with cash := p.cash + v }
          else payGo rest inSec p
        | none => payGo rest inSec p
      else payGo rest inSec p

/-- `extract_payment_data` from `sales_dashboard.py` (lines 156-197):
buckets start at 0.0 and only "credit"/"cash" keys are ever added to. -/
def extract_payment_data (sheet : List (List Cell)) : Payments :=
  payGo sheet false ⟨0, 0, 0⟩

/-- The dict `{"Credit Card": ..., "Cash": ..., "Sales Tax Collected": ...}`
returned by `extract_payment_data`, in insertion order. -/
def paymentPairs (p : Payments) : List (String × ℚ) :=
  [("Credit Card", p.credit), ("Cash", p.cash), ("Sales Tax Collected", p.tax)]

/-- The numeric part of one assembled daily record from `load_workbook`
(lines 274-280): `{**fin, **payment}` with the payment buckets inserted
last, so they overwrite equal keys from the financial section. -/
def assembleMetrics (sheet : List (List Cell)) : List (String × ℚ) :=
  dinsertAll (extract_financial_metrics sheet) (paymentPairs (extract_payment_data sheet))

/-- The weekly pre-override "Sales Tax Collected" of lines 436-439: the
group's summed "Sales Tax Collected" plus its summed "Tax Collected",
missing values contributing 0. -/
def combinedWeeklyTax (g : List (List (String × ℚ))) : ℚ :=
  (g.map (fun r => (dget r "Sales Tax Collected").getD 0)).sum +
    (g.map (fun r => (dget r "Tax Collected").getD 0)).sum

/-- `find_table_start_row`: index of the first row whose first cell
normalizes to "time_slots"/"time slots". -/
def find_table_start_row (sheet : List (List Cell)) : Option ℕ :=
  sheet.findIdx? (fun r =>
    let v := strLower (strTrim (cellToString (r.getD 0 Cell.blank)))
    v = "time_slots" || v = "time slots")

/-- The `cols` dict of `extract_timeslot_table`: normalized header string
to column position, Python-dict overwrite semantics. -/
def buildCols (hdr : List String) : List (String × ℕ) :=
  hdr.enum.foldl (fun m p => dinsert m (strLower (strTrim p.2)) p.1) []

/-- The time/sales/transaction column choice of `extract_timeslot_table`
(lines 225-231): an if/elif chain over the `cols` entries, later matches
overwriting earlier ones. -/
def pickCols (cols : List (String × ℕ)) : Option ℕ × Option ℕ × Option ℕ :=
  cols.foldl
    (fun acc p =>
      let k := p.1
      if k = "time_slots" || k = "time slots" then (some p.2, acc.2.1, acc.2.2)
      else if containsStr k "sales net vat" || containsStr k "after discount" || k = "sales" then
        (acc.1, some p.2, acc.2.2)
      else if containsStr k "transaction" || containsStr k "checks" || containsStr k "count" then
        (acc.1, acc.2.1, some p.2)
      else acc)
    (none, none, none)

/-- One row of the slot table produced by `extract_timeslot_table`. -/
structure SlotRow where
  timeSlot : String
  sales : ℚ
  transactions : ℚ
  avgTicket : ℚ
deriving DecidableEq, Repr

/-- `extract_timeslot_table` from `sales_dashboard.py` (lines 209-249):
find the header row, identify columns by fuzzy match, coerce values with
NaN -> 0, drop blank/"nan" labels and the "total" summary row, and add
the per-row average ticket. -/
def extract_timeslot_table (sheet : List (List Cell)) : List SlotRow :=
  match find_table_start_row sheet with
  | none => []
  | some start =>
    let hdr := (sheet.getD start []).map cellToString
    let body := sheet.drop (start + 1)
    let cols := pickCols (buildCols hdr)
    match cols.1, cols.2.1 with
    | some ti, some si =>
      let rows := body.map (fun r =>
        { timeSlot := strTrim (cellToString (r.getD ti Cell.blank))
          sales := (to_num (r.getD si Cell.blank)).getD 0
          transactions :=
            match cols.2.2 with
            | some xi => (to_num (r.getD xi Cell.blank)).getD 0
            | none => 0
          avgTicket := 0 : SlotRow })
      let rows := rows.filter (fun r => r.timeSlot != "" && r.timeSlot != "nan")
      let rows := rows.filter (fun r => strLower r.timeSlot != "total")
      rows.map (fun r =>
        { r with avgTicket := if 0 < r.transactions then r.sales / r.transactions else 0 })
    | _, _ => []

/-- Read one or two digits from the front of a character list, as the
`strptime` directives `%I`/`%M`/`%S` do. -/
def grab2 : List Char → Option (ℕ × List Char)
  | c1 :: c2 :: rest =>
    if isDigitCh c1 then
      if isDigitCh c2 then some (digitVal c1 * 10 + digitVal c2, rest)
      else some (digitVal c1, c2 :: rest)
    else none
  | [c1] => if isDigitCh c1 then some (digitVal c1, []) else none
  | [] => none

/-- Expect a literal ':' at the front. -/
def expectColon : List Char → Option (List Char)
  | ':' :: r => some r
  | _ => none

/-- The `%p` directive: "AM"/"PM", case-insensitive, ending the string;
`false` for AM, `true` for PM. -/
def readAmPm : List Char → Option Bool
  | [a, p] =>
    if (a = 'A' || a = 'a') && (p = 'M' || p = 'm') then some false
    else if (a = 'P' || a = 'p') && (p = 'M' || p = 'm') then some true
    else none
  | _ => none

/-- `strptime` with format "%I:%M:%S%p": 12-hour time with seconds, as in
`parse_times` of `dashboard.py`; returns (hour24, minute). -/
def parseHMSchars (cs : List Char) : Option (ℕ × ℕ) := do
  let (h, r1) ← grab2 cs
  let r2 ← expectColon r1
  let (m, r3) ← grab2 r2
  let r4 ← expectColon r3
  let (s, r5) ← grab2 r4
  let pm ← readAmPm r5
  if 1 ≤ h ∧ h ≤ 12 ∧ m ≤ 59 ∧ s ≤ 61 then
    some (h % 12 + (if pm then 12 else 0), m)
  else none

/-- `strptime` with the fallback format "%I:%M%p". -/
def parseHMchars (cs : List Char) : Option (ℕ × ℕ) := do
  let (h, r1) ← grab2 cs
  let r2 ← expectColon r1
  let (m, r3) ← grab2 r2
  let pm ← readAmPm r3
  if 1 ≤ h ∧ h ≤ 12 ∧ m ≤ 59 then
    some (h % 12 + (if pm then 12 else 0), m)
  else none

/-- `parse_times` from `dashboard.py` (lines 28-37): strip each label, try
"%I:%M:%S%p" on the whole column, and only if every row fails fall back
to "%I:%M%p" for the whole column. -/
def parse_times (labels : List String) : List (Option (ℕ × ℕ)) :=
  let t := labels.map (fun s => parseHMSchars (trimChars s.data))
  if t.all Option.isNone then labels.map (fun s => parseHMchars (trimChars s.data))
  else t

/-- `strftime("%H:%M")`: zero-padded 24-hour "HH:MM". -/
def formatTime (h m : ℕ) : String :=
  String.mk [digitCh (h / 10), digitCh (h % 10), ':', digitCh (m / 10), digitCh (m % 10)]

/-- One row of the clean day table of `dashboard.py`. -/
structure DayRow where
  day : String
  time : String
  total : ℚ
deriving DecidableEq, Repr

/-- `load_day_sheet` from `dashboard.py` (lines 39-79), applied to the
already-located (time, Total) columns: coerce Total with
`pd.to_numeric(errors="coerce")`, keep only rows whose time parses
(this drops the "Total" summary row), format the time as "HH:MM", and
drop rows whose Total is NaN. -/
def load_day_sheet (rows : List (Cell × Cell)) (sheetName : String) : List DayRow :=
  let ts := parse_times (rows.map (fun p => cellToString p.1))
  (ts.zip rows).filterMap (fun pr =>
    match pr.1, to_num pr.2.2 with
    | some hm, some q => some ⟨sheetName, formatTime hm.1 hm.2, q⟩
    | _, _ => none)

/-- `metric_value` from `sales_dashboard.py` (lines 359-360):
`df[col].sum() if col in df.columns else 0.0`, on the daily table viewed
as a list of sparse metric rows whose column set is the union of keys. -/
def metric_value (df : List (List (String × ℚ))) (col : String) : ℚ :=
  if df.any (fun r => (dget r col).isSome) then
    (df.map (fun r => (dget r col).getD 0)).sum
  else 0

/-- One daily row entering the weekly commission groupby: its week label,
week start, and its sparse metric columns. -/
structure DailyRow where
  weekLabel : String
  weekStart : ℤ
  metrics : List (String × ℚ)
deriving DecidableEq, Repr

/-- The metric columns named by the `groupby(...).agg` dict of
`sales_dashboard.py` lines 416-428. -/
def requiredAggCols : List String :=
  ["Gross Sales Before Discounts", "Total Discounts", "Gross Sales After Discounts",
   "Sales Net VAT", "Credit Card", "Cash", "Sales Tax Collected", "Tax Collected"]

/-- Column-presence test on the daily table: pandas columns are the union
of the per-row keys. -/
def hasColD (df : List DailyRow) (c : String) : Bool :=
  df.any (fun r => (dget r.metrics c).isSome)

/-- Sum of one metric over a group of daily rows, missing values
contributing 0 (pandas sums with `skipna`). -/
def sumMetric (g : List DailyRow) (c : String) : ℚ :=
  (g.map (fun r => (dget r.metrics c).getD 0)).sum

/-- One row of `weekly_data` after the groupby, cash forcing and tax
combination (lines 416-440). -/
structure WeeklyRow where
  label : String
  grossBefore : ℚ
  discounts : ℚ
  grossAfter : ℚ
  netVAT : ℚ
  creditCard : ℚ
  cash : ℚ
  salesTax : ℚ
  weekStart : ℤ
deriving DecidableEq, Repr

/-- The weekly commission groupby of `sales_dashboard.py` lines 416-440:
pandas raises a `KeyError` when a column named in the `agg` dict does not
exist, modelled as `Except.error`; otherwise group by week label, sum the
metric columns, take the first week start, sort by week start, force
`Cash` to 0.0 and fold the two tax columns into one. -/
def weeklyAggregate (df : List DailyRow) : Except String (List WeeklyRow) :=
  let missing := requiredAggCols.filter (fun c => !hasColD df c)
  if missing.isEmpty then
    let labels := (df.map (fun r => r.weekLabel)).dedup
    let rows := labels.map (fun L =>
      let g := df.filter (fun r => r.weekLabel = L)
      { label := L
        grossBefore := sumMetric g "Gross Sales Before Discounts"
        discounts := sumMetric g "Total Discounts"
        grossAfter := sumMetric g "Gross Sales After Discounts"
        netVAT := sumMetric g "Sales Net VAT"
        creditCard := sumMetric g "Credit Card"
        cash := 0
        salesTax := sumMetric g "Sales Tax Collected" + sumMetric g "Tax Collected"
        weekStart := ((g.map (fun r => r.weekStart)).headD 0) : WeeklyRow })
    Except.ok (List.insertionSort (fun a b => a.weekStart ≤ b.weekStart) rows)
  else Except.error "Column(s) do not exist"

/-- The `Cash` forcing of line 433: `weekly_data["Cash"] = 0.0`. -/
def forceCashZero (w : WeeklyRow) : WeeklyRow := { w with cash := 0 }

/-- The sales-tax step of lines 510-518: when the manual override dict is
non-empty, each override sets its week's tax; when it is empty, every
week's tax is imputed as `Credit Card * SALES_TAX_RATE`. -/
def applySalesTaxOverrides (ov : List (String × ℚ)) (rate : ℚ) (ws : List WeeklyRow) :
    List WeeklyRow :=
  if ov.isEmpty then ws.map (fun w => { w with salesTax := w.creditCard * rate })
  else ov.foldl
    (fun acc p => acc.map (fun w => if w.label = p.1 then { w with salesTax := p.2 } else w))
    ws

/-- The last override listed for a given week label, if any. -/
def lastOverride (ov : List (String × ℚ)) (lbl : String) : Option ℚ :=
  ov.foldl (fun acc p => if p.1 = lbl then some p.2 else acc) none

/-- The derived commission columns of lines 523-534. -/
structure CommOut where
  calculatedGrossBefore : ℚ
  ccFee : ℚ
  totalCommissionable : ℚ
  aramarkCommission : ℚ
  totalARACommission : ℚ
  nikoCommission : ℚ
  totalCheckNiko : ℚ
deriving DecidableEq, Repr

/-- The commission arithmetic of `sales_dashboard.py` lines 523-534,
applied to one weekly row. -/
def commission_fields (w : WeeklyRow) (commissionRate ccFeeRate : ℚ) : CommOut :=
  let cgb := w.grossAfter + w.discounts
  let fee := w.creditCard * ccFeeRate
  let tc := cgb - fee
  let ara := tc * commissionRate
  ⟨cgb, fee, tc, ara, ara - w.discounts, tc - ara, (tc - ara) - w.cash + w.salesTax⟩

/-- Weekly aggregates relevant to the growth columns: net sales, gross
after discounts, and the week's slot-table transaction count. -/
structure WeekSeries where
  salesNetVAT : ℚ
  grossAfter : ℚ
  transactions : ℚ
deriving DecidableEq, Repr

/-- pandas `Series.pct_change`: first entry NaN (`none`), then
`cur / prev - 1`. -/
def pctChange : List ℚ → List (Option ℚ)
  | [] => []
  | x :: rest => none :: List.zipWith (fun prev cur => some (cur / prev - 1)) (x :: rest) rest

/-- Line 609: `weekly_data["Sales Net VAT"].pct_change() * 100`. -/
def wowSalesGrowth (ws : List WeekSeries) : List (Option ℚ) :=
  (pctChange (ws.map (fun w => w.salesNetVAT))).map (Option.map (fun g => g * 100))

/-- Line 610: the column named `WoW_Txn_Growth` is
`weekly_data["Gross Sales After Discounts"].pct_change() * 100`. -/
def wowTxnGrowth (ws : List WeekSeries) : List (Option ℚ) :=
  (pctChange (ws.map (fun w => w.grossAfter))).map (Option.map (fun g => g * 100))

/-- Modelled from the spec: week-over-week percent change of the summed
weekly transaction counts, the quantity the spec says the transaction
growth column reports. -/
def specTxnGrowth (ws : List WeekSeries) : List (Option ℚ) :=
  (pctChange (ws.map (fun w => w.transactions))).map (Option.map (fun g => g * 100))

/-- pandas `Series.quantile(q)` with the default linear interpolation:
sort, take position `q * (n - 1)`, interpolate between the neighbours. -/
def quantileLinear (xs : List ℚ) (q : ℚ) : ℚ :=
  let s := List.insertionSort (fun a b => a ≤ b) xs
  match s with
  | [] => 0
  | _ =>
    let n := s.length
    let h : ℚ := q * ((n : ℚ) - 1)
    let i : ℕ := (Rat.floor h).toNat
    let a := s.getD i 0
    let b := s.getD (i + 1) a
    a + (h - (i : ℚ)) * (b - a)

/-- The peak list: slot sales at or above the `1 - p_top` quantile, sorted
descending (lines 887 and 949 of `sales_dashboard.py`, lines 156-159 of
`dashboard.py`; both variants use the same quantile and filters). -/
def peaksOf (xs : List ℚ) (pTop : ℚ) : List ℚ :=
  List.insertionSort (fun a b => b ≤ a)
    (xs.filter (fun v => quantileLinear xs (1 - pTop) ≤ v))

/-- The slow list: slot sales at or below the `p_bottom` quantile, sorted
ascending. -/
def slowsOf (xs : List ℚ) (pBot : ℚ) : List ℚ :=
  List.insertionSort (fun a b => a ≤ b)
    (xs.filter (fun v => v ≤ quantileLinear xs pBot))

/-- The ten slot sales values of the spec's peak/slow scenario. -/
def exSlots : List ℚ := [10, 20, 30, 40, 50, 60, 70, 80, 90, 100]

/-! Helper lemmas about trimming, dictionaries and the payment extractor. -/

theorem dropWhile_isWS_idem (x : List Char) :
    (x.dropWhile isWS).dropWhile isWS = x.dropWhile isWS := by
  induction x with
  | nil => rfl
  | cons a t ih =>
    by_cases h : isWS a = true
    · simp [List.dropWhile_cons, h, ih]
    · simp [List.dropWhile_cons, h]

theorem dropWhile_isWS_head (a : Char) (t : List Char)
    (h : (a :: t).dropWhile isWS = a :: t) : isWS a = false := by
  by_contra hc
  rw [Bool.not_eq_false] at hc
  rw [List.dropWhile_cons_of_pos hc] at h
  have h1 : (t.dropWhile isWS).length ≤ t.length :=
    (List.dropWhile_suffix isWS).sublist.length_le
  have h2 := congrArg List.length h
  simp at h2
  omega

theorem dropTrail_idem (x : List Char) : dropTrail (dropTrail x) = dropTrail x := by
  induction x with
  | nil => rfl
  | cons c rest ih =>
    show dropTrail (match dropTrail rest with
      | [] => if isWS c then [] else [c]
      | r => c :: r) = (match dropTrail rest with
      | [] => if isWS c then [] else [c]
      | r => c :: r)
    cases h : dropTrail rest with
    | nil =>
      by_cases hw : isWS c = true
      · simp [hw, dropTrail]
      · simp [hw, dropTrail]
    | cons b bs =>
      have h2 : dropTrail (b :: bs) = b :: bs := by rw [← h, ih, h]
      show dropTrail (c :: b :: bs) = c :: b :: bs
      rw [show dropTrail (c :: b :: bs) = (match dropTrail (b :: bs) with
        | [] => if isWS c then [] else [c]
        | r => c :: r) from rfl, h2]

theorem frontClean_dropTrail (x : List Char) (hx : x.dropWhile isWS = x) :
    (dropTrail x).dropWhile isWS = dropTrail x := by
  cases x with
  | nil => rfl
  | cons a t =>
    have ha := dropWhile_isWS_head a t hx
    show (dropTrail (a :: t)).dropWhile isWS = dropTrail (a :: t)
    rw [show dropTrail (a :: t) = (match dropTrail t with
      | [] => if isWS a then [] else [a]
      | r => a :: r) from rfl]
    cases h : dropTrail t with
    | nil => simp [ha, List.dropWhile_cons]
    | cons b bs => simp [ha, List.dropWhile_cons]

theorem trimChars_idem (l : List Char) : trimChars (trimChars l) = trimChars l := by
  unfold trimChars
  rw [frontClean_dropTrail (l.dropWhile isWS) (dropWhile_isWS_idem l), dropTrail_idem]

theorem strTrim_idem (s : String) : strTrim (strTrim s) = strTrim s := by
  show String.mk (trimChars (trimChars s.data)) = String.mk (trimChars s.data)
  rw [trimChars_idem]

theorem dget_append_of_none {α : Type} (m l : List (String × α)) (k : String)
    (h : dget m k = none) : dget (m ++ l) k = dget l k := by
  induction m with
  | nil => rfl
  | cons p t ih =>
    obtain ⟨a, b⟩ := p
    by_cases ha : a = k
    · simp [dget, ha] at h
    · simp [dget, ha] at h ⊢
      exact ih h

theorem dget_none_of_not_any {α : Type} (m : List (String × α)) (k : String)
    (h : m.any (fun p => p.1 = k) = false) : dget m k = none := by
  induction m with
  | nil => rfl
  | cons p t ih =>
    obtain ⟨a, b⟩ := p
    simp only [List.any_cons, Bool.or_eq_false_iff] at h
    have ha : ¬(a = k) := by
      intro hc
      rw [hc] at h
      simp at h
    simp [dget, ha]
    exact ih h.2

theorem dget_map_self {α : Type} (m : List (String × α)) (k : String) (v : α)
    (h : m.any (fun p => p.1 = k) = true) :
    dget (m.map (fun p => if p.1 = k then (k, v) else p)) k = some v := by
  induction m with
  | nil => simp at h
  | cons p t ih =>
    obtain ⟨a, b⟩ := p
    simp only [List.map_cons]
    by_cases ha : a = k
    · subst ha
      have hhead : ((if (a, b).1 = a then (a, v) else (a, b)) : String × α) = (a, v) := by
        simp
      rw [hhead]
      simp [dget]
    · have hhead : ((if (a, b).1 = k then (k, v) else (a, b)) : String × α) = (a, b) := by
        simp [ha]
      rw [hhead]
      simp only [List.any_cons] at h
      have h2 : t.any (fun p => decide (p.1 = k)) = true := by
        rcases Bool.or_eq_true_iff.mp h with h1 | h1
        · exact absurd (of_decide_eq_true h1) ha
        · exact h1
      show (if a = k then some b
        else dget (t.map (fun p => if p.1 = k then (k, v) else p)) k) = some v
      rw [if_neg ha]
      exact ih h2

theorem dget_dinsert_self {α : Type} (m : List (String × α)) (k : String) (v : α) :
    dget (dinsert m k v) k = some v := by
  unfold dinsert
  by_cases h : m.any (fun p => p.1 = k) = true
  · rw [if_pos h]
    exact dget_map_self m k v h
  · rw [if_neg h]
    rw [dget_append_of_none m _ k (dget_none_of_not_any m k (Bool.not_eq_true _ ▸ h))]
    simp [dget]

theorem extract_payment_data_tax_aux (rows : List (List Cell)) :
    ∀ (flag : Bool) (p : Payments), (payGo rows flag p).tax = p.tax := by
  induction rows with
  | nil => intro flag p; rfl
  | cons r rest ih =>
    intro flag p
    rw [payGo]
    dsimp only
    split
    · exact ih _ _
    · split
      · exact ih _ _
      · split
        · rfl
        · split
          · split
            · split
              · rw [ih]
              · split
                · rw [ih]
                · exact ih _ _
            · exact ih _ _
          · exact ih _ _

theorem extract_payment_data_tax (sheet : List (List Cell)) :
    (extract_payment_data sheet).tax = 0 :=
  extract_payment_data_tax_aux sheet false ⟨0, 0, 0⟩

theorem dget_assembleMetrics_salesTax (sheet : List (List Cell)) :
    dget (assembleMetrics sheet) "Sales Tax Collected" = some 0 := by
  show dget (dinsert (dinsert (dinsert (extract_financial_metrics sheet)
      "Credit Card" (extract_payment_data sheet).credit)
      "Cash" (extract_payment_data sheet).cash)
      "Sales Tax Collected" (extract_payment_data sheet).tax) "Sales Tax Collected" = some 0
  rw [dget_dinsert_self, extract_payment_data_tax]

/-- C10: the assembled daily "Sales Tax Collected" is always 0.0 —
`extract_payment_data` initialises that bucket to 0.0 and never writes to
it, the payment dict is merged after the financial dict and so overwrites
the mirrored tax metric, and hence the weekly pre-override
"Sales Tax Collected" equals the sum of the raw "Tax Collected" metric
alone. -/
theorem sales_tax_always_zero :
    (∀ sheet : List (List Cell), (extract_payment_data sheet).tax = 0) ∧
    (∀ sheet : List (List Cell),
      dget (assembleMetrics sheet) "Sales Tax Collected" = some 0) ∧
    ∀ sheets : List (List (List Cell)),
      combinedWeeklyTax (sheets.map assembleMetrics) =
        (sheets.map (fun s => (dget (assembleMetrics s) "Tax Collected").getD 0)).sum := by
  refine ⟨fun s => extract_payment_data_tax s, fun s => dget_assembleMetrics_salesTax s,
    fun sheets => ?_⟩
  unfold combinedWeeklyTax
  have h1 : ((sheets.map assembleMetrics).map
      (fun r => (dget r "Sales Tax Collected").getD 0)).sum = 0 := by
    rw [List.map_map]
    apply List.sum_eq_zero
    intro x hx
    simp only [List.mem_map, Function.comp] at hx
    obtain ⟨s, _, rfl⟩ := hx
    rw [dget_assembleMetrics_salesTax]
    rfl
  rw [h1, zero_add, List.map_map]
  rfl

/-! Calendar lemmas and the sales-week claims. -/

theorem week_start_of_le (z : ℤ) : week_start_of z ≤ z := by
  unfold week_start_of pyWeekday
  omega

theorem le_week_start_of_add_six (z : ℤ) : z ≤ week_start_of z + 6 := by
  unfold week_start_of pyWeekday
  omega

theorem pyWeekday_week_start_of (z : ℤ) : pyWeekday (week_start_of z) = 3 := by
  unfold week_start_of pyWeekday
  omega

theorem week_start_of_add_seven (z : ℤ) : week_start_of (z + 7) = week_start_of z + 7 := by
  unfold week_start_of pyWeekday
  omega

theorem gsw_weekStart (z : ℤ) : (get_sales_week z).weekStart = week_start_of z := by
  unfold get_sales_week
  dsimp only
  split <;> rfl

theorem gsw_weekEnd (z : ℤ) : (get_sales_week z).weekEnd = week_start_of z + 6 := by
  unfold get_sales_week
  dsimp only
  split <;> rfl

/-- C3: for every date, the sales week of `get_sales_week` satisfies
`weekStart ≤ d ≤ weekEnd`, `weekStart` falls on a Thursday (weekday 3),
`weekEnd = weekStart + 6`, and the week starts of two consecutive sales
weeks differ by exactly 7 days. -/
theorem sales_week_bounds (z : ℤ) :
    (get_sales_week z).weekStart ≤ z ∧
    z ≤ (get_sales_week z).weekEnd ∧
    pyWeekday (get_sales_week z).weekStart = 3 ∧
    (get_sales_week z).weekEnd = (get_sales_week z).weekStart + 6 ∧
    (get_sales_week (z + 7)).weekStart = (get_sales_week z).weekStart + 7 := by
  rw [gsw_weekStart, gsw_weekEnd, gsw_weekStart]
  exact ⟨week_start_of_le z, le_week_start_of_add_six z, pyWeekday_week_start_of z,
    rfl, week_start_of_add_seven z⟩

/-- C2 counterexample: January 2, 2025 is the first Thursday on or after
January 1, 2025 (Jan 1 is a Wednesday), yet `get_sales_week` numbers it
week 2, not week 1; and January 1, 2025, which precedes that first
Thursday, is assigned week 53 of 2024, not week 52. -/
theorem first_thursday_rule_counterexample :
    pyWeekday (epochDays 2025 1 1) = 2 ∧
    pyWeekday (epochDays 2025 1 2) = 3 ∧
    epochDays 2025 1 2 = epochDays 2025 1 1 + 1 ∧
    (get_sales_week (epochDays 2025 1 2)).weekNum = 2 ∧
    (get_sales_week (epochDays 2025 1 1)).year = 2024 ∧
    (get_sales_week (epochDays 2025 1 1)).weekNum = 53 := by decide

/-- C2 amended: week numbering is anchored at the Thursday on or before
January 1 of the week-start's calendar year, not at the first Thursday on
or after it.  The anchor `week_start_of (jan 1)` is a Thursday at most 6
days before January 1; when January 1 is itself a Thursday (2026) it gets
week 1, but the first Thursday on or after a non-Thursday January 1
(Jan 2, 2025) gets week 2, and a date in the partial week containing
January 1 (Jan 1, 2025) belongs to the previous year with week number 53.
A week spanning Dec 31/Jan 1 (Dec 31, 2024 and Jan 1, 2025) is one sales
week, numbered by the calendar year of its week-start Thursday. -/
theorem sales_week_anchor_amended :
    (∀ y : ℤ,
      pyWeekday (week_start_of (epochDays y 1 1)) = 3 ∧
      week_start_of (epochDays y 1 1) ≤ epochDays y 1 1 ∧
      epochDays y 1 1 ≤ week_start_of (epochDays y 1 1) + 6) ∧
    get_sales_week (epochDays 2025 1 2) =
      ⟨2025, 2, epochDays 2025 1 2, epochDays 2025 1 2 + 6⟩ ∧
    get_sales_week (epochDays 2025 1 1) =
      ⟨2024, 53, epochDays 2024 12 26, epochDays 2024 12 26 + 6⟩ ∧
    get_sales_week (epochDays 2024 12 31) = get_sales_week (epochDays 2025 1 1) ∧
    get_sales_week (epochDays 2026 1 1) =
      ⟨2026, 1, epochDays 2026 1 1, epochDays 2026 1 1 + 6⟩ := by
  refine ⟨fun y => ⟨pyWeekday_week_start_of _, week_start_of_le _,
    le_week_start_of_add_six _⟩, by decide, by decide, by decide, by decide⟩

/-! Commission arithmetic and the sales-tax override step. -/

/-- C1: for every sales week, with cash forced to zero, the commission
fields of lines 523-534 satisfy the spec's equations, and on the concrete
scenario (gross after = 1000, discounts = 100, credit card = 500,
commission 20%, cc fee 3%, tax override 40, cash forced to 0) they give
1100, 15, 1085, 217, 117, 868 and 908. -/
theorem commission_arithmetic_spec :
    (∀ (w : WeeklyRow) (cr fr : ℚ),
      (commission_fields (forceCashZero w) cr fr).calculatedGrossBefore =
          w.grossAfter + w.discounts ∧
      (commission_fields (forceCashZero w) cr fr).ccFee = w.creditCard * fr ∧
      (commission_fields (forceCashZero w) cr fr).totalCommissionable =
          (commission_fields (forceCashZero w) cr fr).calculatedGrossBefore -
            (commission_fields (forceCashZero w) cr fr).ccFee ∧
      (commission_fields (forceCashZero w) cr fr).aramarkCommission =
          (commission_fields (forceCashZero w) cr fr).totalCommissionable * cr ∧
      (commission_fields (forceCashZero w) cr fr).totalARACommission =
          (commission_fields (forceCashZero w) cr fr).aramarkCommission - w.discounts ∧
      (commission_fields (forceCashZero w) cr fr).nikoCommission =
          (commission_fields (forceCashZero w) cr fr).totalCommissionable -
            (commission_fields (forceCashZero w) cr fr).aramarkCommission ∧
      (commission_fields (forceCashZero w) cr fr).totalCheckNiko =
          (commission_fields (forceCashZero w) cr fr).nikoCommission -
            (forceCashZero w).cash + w.salesTax ∧
      (forceCashZero w).cash = 0) ∧
    commission_fields (forceCashZero ⟨"W", 0, 100, 1000, 0, 500, 10, 40, 0⟩) (1/5) (3/100) =
      ⟨1100, 15, 1085, 217, 117, 868, 908⟩ := by
  constructor
  · intro w cr fr
    refine ⟨rfl, rfl, rfl, rfl, rfl, rfl, ?_, rfl⟩
    show (commission_fields (forceCashZero w) cr fr).totalCheckNiko =
      (commission_fields (forceCashZero w) cr fr).nikoCommission - 0 + w.salesTax
    show _ - (0 : ℚ) + w.salesTax = _ - 0 + w.salesTax
    rfl
  · show commission_fields
      ⟨"W", 0, 100, 1000, 0, 500, 0, 40, 0⟩ (1/5) (3/100) =
      ⟨1100, 15, 1085, 217, 117, 868, 908⟩
    norm_num [commission_fields, CommOut.mk.injEq]

theorem ov_foldl_map (ov : List (String × ℚ)) (ws : List WeeklyRow) :
    ov.foldl (fun acc p => acc.map
        (fun w => if w.label = p.1 then { w with salesTax := p.2 } else w)) ws
      = ws.map (fun w => ov.foldl
          (fun w p => if w.label = p.1 then { w with salesTax := p.2 } else w) w) := by
  induction ov generalizing ws with
  | nil => simp
  | cons q rest ih =>
    simp only [List.foldl_cons]
    rw [ih, List.map_map]
    rfl

theorem lastOv_acc (rest : List (String × ℚ)) (lbl : String) :
    ∀ acc : Option ℚ,
      rest.foldl (fun a p => if p.1 = lbl then some p.2 else a) acc
        = match rest.foldl (fun a p => if p.1 = lbl then some p.2 else a) none with
          | some v => some v
          | none => acc := by
  induction rest with
  | nil => intro acc; rfl
  | cons q t ih =>
    intro acc
    simp only [List.foldl_cons]
    by_cases h : q.1 = lbl
    · rw [if_pos h, if_pos h, ih (some q.2)]
      cases hfold : t.foldl (fun a p => if p.1 = lbl then some p.2 else a) none <;> rfl
    · rw [if_neg h, if_neg h]
      exact ih acc

theorem ov_foldl_row (ov : List (String × ℚ)) (w : WeeklyRow) :
    ov.foldl (fun w p => if w.label = p.1 then { w with salesTax := p.2 } else w) w
      = { w with salesTax := (lastOverride ov w.label).getD w.salesTax } := by
  induction ov generalizing w with
  | nil => rfl
  | cons q rest ih =>
    simp only [List.foldl_cons]
    by_cases h : w.label = q.1
    · rw [if_pos h, ih]
      show ({ w with salesTax := (lastOverride rest w.label).getD q.2 } : WeeklyRow) = _
      unfold lastOverride
      simp only [List.foldl_cons, if_pos h.symm]
      rw [lastOv_acc rest w.label (some q.2)]
      show _ = ({ w with salesTax :=
        (match lastOverride rest w.label with
          | some v => some v
          | none => some q.2).getD w.salesTax } : WeeklyRow)
      cases hfold : lastOverride rest w.label with
      | none => unfold lastOverride at hfold; rw [hfold]; rfl
      | some v => unfold lastOverride at hfold; rw [hfold]; rfl
    · rw [if_neg h, ih]
      show _ = ({ w with salesTax := (lastOverride (q :: rest) w.label).getD w.salesTax } :
        WeeklyRow)
      unfold lastOverride
      simp only [List.foldl_cons]
      rw [if_neg (fun hc => h hc.symm)]

/-- C4 amended: the override-versus-fallback choice is global, not
per-week — when the override dict is empty every week's tax is imputed as
`credit_card * sales_tax_rate`, and when it is non-empty each week whose
label has an override gets that (last) override value while every other
week keeps its raw summed sales tax, with no imputation. -/
theorem sales_tax_override_amended :
    (∀ (rate : ℚ) (ws : List WeeklyRow),
      applySalesTaxOverrides [] rate ws =
        ws.map (fun w => { w with salesTax := w.creditCard * rate })) ∧
    (∀ (ov : List (String × ℚ)) (rate : ℚ) (ws : List WeeklyRow), ov ≠ [] →
      applySalesTaxOverrides ov rate ws =
        ws.map (fun w => { w with salesTax := (lastOverride ov w.label).getD w.salesTax })) := by
  constructor
  · intro rate ws
    rfl
  · intro ov rate ws hne
    unfold applySalesTaxOverrides
    rw [if_neg (by simpa [List.isEmpty_iff] using hne)]
    rw [ov_foldl_map]
    apply List.map_congr_left
    intro w _
    exact ov_foldl_row ov w

/-- C4 witness: applying the amended theorem to a concrete override list
and two concrete weeks. -/
theorem sales_tax_override_amended_witness :
    applySalesTaxOverrides [("W1", (40 : ℚ))] (8/100)
        [⟨"W1", 0, 0, 0, 0, 100, 0, 7, 0⟩, ⟨"W2", 0, 0, 0, 0, 500, 0, 5, 0⟩] =
      [⟨"W1", 0, 0, 0, 0, 100, 0, 40, 0⟩, ⟨"W2", 0, 0, 0, 0, 500, 0, 5, 0⟩] := by
  rw [sales_tax_override_amended.2 [("W1", (40 : ℚ))] (8/100)
    [⟨"W1", 0, 0, 0, 0, 100, 0, 7, 0⟩, ⟨"W2", 0, 0, 0, 0, 500, 0, 5, 0⟩] (by decide)]
  decide

/-- C4 counterexample: with an override supplied only for week W1, week W2
keeps its raw summed sales tax (5) instead of the imputed
`credit_card * sales_tax_rate` (40), so the override-versus-fallback
choice is not made independently per week. -/
theorem sales_tax_override_counterexample :
    (applySalesTaxOverrides [("W1", (40 : ℚ))] (8/100)
        [⟨"W1", 0, 0, 0, 0, 100, 0, 7, 0⟩, ⟨"W2", 0, 0, 0, 0, 500, 0, 5, 0⟩]).map
        (fun w => w.salesTax) = [40, 5] ∧
    (5 : ℚ) ≠ 500 * (8/100) := by
  constructor
  · decide
  · norm_num

/-! The "total" summary-row exclusion and the growth columns. -/

theorem isWS_digitCh (n : ℕ) : isWS (digitCh n) = false := by
  have h : ∀ k, k < 10 → isWS (Char.ofNat (48 + k)) = false := by decide
  exact h (n % 10) (Nat.mod_lt n (by norm_num))

theorem lowerCh_digitCh (n : ℕ) : lowerCh (digitCh n) = digitCh n := by
  have h : ∀ k, k < 10 → lowerCh (Char.ofNat (48 + k)) = Char.ofNat (48 + k) := by decide
  exact h (n % 10) (Nat.mod_lt n (by norm_num))

theorem trimChars_formatTime (h m : ℕ) :
    trimChars (formatTime h m).data = (formatTime h m).data := by
  show trimChars [digitCh (h / 10), digitCh (h % 10), ':', digitCh (m / 10), digitCh (m % 10)]
    = [digitCh (h / 10), digitCh (h % 10), ':', digitCh (m / 10), digitCh (m % 10)]
  have hcolon : isWS ':' = false := by decide
  unfold trimChars
  rw [List.dropWhile_cons_of_neg (by simp [isWS_digitCh])]
  simp [dropTrail, isWS_digitCh, hcolon]

theorem formatTime_not_total (h m : ℕ) :
    strLower (strTrim (formatTime h m)) ≠ "total" := by
  intro heq
  have hdata := congrArg String.data heq
  rw [show (strLower (strTrim (formatTime h m))).data
      = (trimChars (formatTime h m).data).map lowerCh from rfl] at hdata
  rw [trimChars_formatTime] at hdata
  rw [show (formatTime h m).data = [digitCh (h / 10), digitCh (h % 10), ':',
      digitCh (m / 10), digitCh (m % 10)] from rfl] at hdata
  simp only [List.map_cons, List.map_nil, lowerCh_digitCh] at hdata
  injection hdata with h1 hrest
  injection hrest with h2 hrest2
  injection hrest2 with h3 _
  have hc : lowerCh ':' = ':' := by decide
  rw [hc] at h3
  exact absurd h3 (by decide)

theorem not_digit_of_lower_t (c : Char) (h : lowerCh c = 't') : isDigitCh c = false := by
  by_contra hc
  rw [Bool.not_eq_false] at hc
  have hd : 48 ≤ c.toNat ∧ c.toNat ≤ 57 := by simpa [isDigitCh] using hc
  have hlc : lowerCh c = c := by
    unfold lowerCh
    rw [if_neg]
    omega
  rw [hlc] at h
  subst h
  exact absurd hd (by decide)

theorem grab2_none (c : Char) (cs : List Char) (h : isDigitCh c = false) :
    grab2 (c :: cs) = none := by
  cases cs <;> simp [grab2, h]

theorem parseHMS_none_head (c : Char) (cs : List Char) (h : isDigitCh c = false) :
    parseHMSchars (c :: cs) = none := by
  unfold parseHMSchars
  rw [grab2_none c cs h]
  rfl

theorem parseHM_none_head (c : Char) (cs : List Char) (h : isDigitCh c = false) :
    parseHMchars (c :: cs) = none := by
  unfold parseHMchars
  rw [grab2_none c cs h]
  rfl

theorem trim_total_head (s : String) (h : strLower (strTrim s) = "total") :
    ∃ c cs, trimChars s.data = c :: cs ∧ lowerCh c = 't' := by
  have hdata := congrArg String.data h
  rw [show (strLower (strTrim s)).data = (trimChars s.data).map lowerCh from rfl] at hdata
  rw [show ("total".data = ['t', 'o', 't', 'a', 'l']) from rfl] at hdata
  cases hl : trimChars s.data with
  | nil => rw [hl] at hdata; simp at hdata
  | cons c cs =>
    rw [hl] at hdata
    simp only [List.map_cons] at hdata
    injection hdata with h1 _
    exact ⟨c, cs, rfl, h1⟩

/-- C5: no produced slot-table row has a time-slot label that trims and
lower-cases to "total": `extract_timeslot_table` filters such labels out
explicitly, `load_day_sheet` keeps only rows whose label parses as a time
and re-formats them as "HH:MM", and any label normalising to "total"
fails both time formats. -/
theorem total_row_excluded :
    (∀ (sheet : List (List Cell)) (r : SlotRow),
      r ∈ extract_timeslot_table sheet → strLower (strTrim r.timeSlot) ≠ "total") ∧
    (∀ (rows : List (Cell × Cell)) (nm : String) (r : DayRow),
      r ∈ load_day_sheet rows nm → strLower (strTrim r.time) ≠ "total") ∧
    (∀ s : String, strLower (strTrim s) = "total" →
      parseHMSchars (trimChars s.data) = none ∧ parseHMchars (trimChars s.data) = none) := by
  refine ⟨?_, ?_, ?_⟩
  · intro sheet r hr
    unfold extract_timeslot_table at hr
    split at hr
    · simp at hr
    · dsimp only at hr
      split at hr
      · simp only [List.mem_map] at hr
        obtain ⟨r', hr', rfl⟩ := hr
        rw [List.mem_filter] at hr'
        obtain ⟨hr'', hcond⟩ := hr'
        rw [List.mem_filter] at hr''
        obtain ⟨hmem, _⟩ := hr''
        simp only [List.mem_map] at hmem
        obtain ⟨row, _, rfl⟩ := hmem
        dsimp only at hcond ⊢
        rw [strTrim_idem]
        simpa [bne_iff_ne] using hcond
      · simp at hr
  · intro rows nm r hr
    unfold load_day_sheet at hr
    simp only [List.mem_filterMap] at hr
    obtain ⟨pr, _, heq⟩ := hr
    split at heq
    · have hr2 := Option.some.inj heq
      subst hr2
      exact formatTime_not_total _ _
    · simp at heq
  · intro s hs
    obtain ⟨c, cs, hl, hc⟩ := trim_total_head s hs
    rw [hl]
    exact ⟨parseHMS_none_head c cs (not_digit_of_lower_t c hc),
      parseHM_none_head c cs (not_digit_of_lower_t c hc)⟩

/-- C5 witness: the claim theorem applied to a concrete sheet for each
variant. -/
theorem total_row_excluded_witness :
    strLower (strTrim "9:00 AM") ≠ "total" ∧ strLower (strTrim "10:00") ≠ "total" :=
  ⟨total_row_excluded.1
      [[Cell.str "time_slots", Cell.str "Sales"], [Cell.str "9:00 AM", Cell.num 5]]
      ⟨"9:00 AM", 5, 0, 0⟩ (by decide),
   total_row_excluded.2.1 [(Cell.str "10:00:00AM", Cell.num 7)] "d"
      ⟨"d", "10:00", 7⟩ (by decide)⟩

/-- C7 counterexample: the column named `WoW_Txn_Growth` is the percent
change of "Gross Sales After Discounts", not of the weekly transaction
counts — with constant gross and doubling transactions it reports 0%
where the transactions percent change is 100%. -/
theorem txn_growth_counterexample :
    wowTxnGrowth [⟨100, 100, 10⟩, ⟨100, 100, 20⟩] = [none, some 0] ∧
    specTxnGrowth [⟨100, 100, 10⟩, ⟨100, 100, 20⟩] = [none, some 100] ∧
    (some (0 : ℚ) : Option ℚ) ≠ some 100 := by
  refine ⟨?_, ?_, by simp⟩
  · show [none, Option.map (fun g => g * 100) (some ((100 : ℚ) / 100 - 1))] = [none, some 0]
    norm_num
  · show [none, Option.map (fun g => g * 100) (some ((20 : ℚ) / 10 - 1))] = [none, some 100]
    norm_num

/-- C7 amended: the weekly rollup computes week-over-week percent change
for sales (Sales Net VAT) and a second series computed from
"Gross Sales After Discounts" (despite its transaction-growth name); for
the first week of the sequence both values are none (null), never zero
and never an error, and each series has one entry per week. -/
theorem wow_growth_amended :
    (∀ (w : WeekSeries) (ws : List WeekSeries),
      (wowSalesGrowth (w :: ws)).head? = some none ∧
      (wowTxnGrowth (w :: ws)).head? = some none ∧
      (wowSalesGrowth (w :: ws)).length = ws.length + 1 ∧
      (wowTxnGrowth (w :: ws)).length = ws.length + 1) ∧
    wowSalesGrowth [] = [] ∧ wowTxnGrowth [] = [] := by
  refine ⟨fun w ws => ⟨rfl, rfl, ?_, ?_⟩, rfl, rfl⟩
  · simp [wowSalesGrowth, pctChange]
  · simp [wowTxnGrowth, pctChange]

/-! Numeric coercion, row dropping, and absent metric columns. -/

/-- C8 counterexample: in `dashboard.py`, a row whose time parses but
whose Total cell is non-numeric is dropped from the table (line 76
`dropna`), not kept with the value coerced to 0 as the claim states for
both variants. -/
theorem nonnumeric_drop_counterexample :
    load_day_sheet [(Cell.str "11:00:00AM", Cell.str "abc")] "d" = [] ∧
    parse_times ["11:00:00AM"] = [some (11, 0)] ∧
    to_num (Cell.str "abc") = none := by decide

/-- C8 amended: in `sales_dashboard.py`'s slot extraction, non-numeric
sales and transaction cells are coerced to 0 and a missing transactions
column defaults to a constant 0, with no error; in `dashboard.py`,
however, a non-numeric Total cell causes its row to be dropped — every
surviving row's total comes from a successfully parsed numeric cell. -/
theorem numeric_coercion_amended :
    extract_timeslot_table
        [[Cell.str "time_slots", Cell.str "Sales", Cell.str "Transactions"],
         [Cell.str "9:00 AM", Cell.str "abc", Cell.str "xyz"]] =
      [⟨"9:00 AM", 0, 0, 0⟩] ∧
    extract_timeslot_table
        [[Cell.str "time_slots", Cell.str "Sales"],
         [Cell.str "9:00 AM", Cell.num 5]] =
      [⟨"9:00 AM", 5, 0, 0⟩] ∧
    to_num (Cell.str "abc") = none ∧
    to_num (Cell.str "xyz") = none ∧
    (∀ (rows : List (Cell × Cell)) (nm : String) (r : DayRow),
      r ∈ load_day_sheet rows nm → ∃ p ∈ rows, to_num p.2 = some r.total) := by
  refine ⟨by decide, by decide, by decide, by decide, ?_⟩
  intro rows nm r hr
  unfold load_day_sheet at hr
  simp only [List.mem_filterMap] at hr
  obtain ⟨pr, hmem, heq⟩ := hr
  obtain ⟨t, p⟩ := pr
  have hp := (List.of_mem_zip hmem).2
  refine ⟨p, hp, ?_⟩
  split at heq
  · rename_i hm hq
    have hr2 := Option.some.inj heq
    subst hr2
    exact hq
  · simp at heq

/-- C8 witness: the amended theorem applied to a one-row sheet whose
total is numeric. -/
theorem numeric_coercion_amended_witness :
    to_num (Cell.num 7) = some (7 : ℚ) := by
  obtain ⟨p, hp, he⟩ := numeric_coercion_amended.2.2.2.2
    [(Cell.str "10:00:00AM", Cell.num 7)] "d" ⟨"d", "10:00", 7⟩ (by decide)
  have hp2 : p = (Cell.str "10:00:00AM", Cell.num 7) := by simpa using hp
  rw [hp2] at he
  exact he

/-- C9 counterexample: the weekly commission groupby names the column
"Tax Collected" in its `agg` dict, and a daily table in which no sheet
ever produced that metric makes pandas raise a missing-column `KeyError`
(modelled as `Except.error`) instead of treating it as zero. -/
theorem weekly_agg_missing_column_counterexample :
    weeklyAggregate [⟨"W1", 0, [("Gross Sales Before Discounts", 100), ("Total Discounts", 10),
        ("Gross Sales After Discounts", 90), ("Sales Net VAT", 85), ("Credit Card", 50),
        ("Cash", 5), ("Sales Tax Collected", 0)]⟩] = Except.error "Column(s) do not exist" ∧
    metric_value [[("Gross Sales Before Discounts", 100)]] "Tax Collected" = 0 := ⟨rfl, rfl⟩

/-- C9 amended: the overall KPI totals (`metric_value`) treat a metric
column absent from every sheet as 0.0 and always complete, but the weekly
commission grouping succeeds exactly when every column named in its agg
dict is present in at least one row — a metric absent from all sheets
aborts it with a missing-column error. -/
theorem metric_absent_amended :
    (∀ (df : List (List (String × ℚ))) (col : String),
      (∀ r ∈ df, dget r col = none) → metric_value df col = 0) ∧
    (∀ df : List DailyRow,
      (∃ ws, weeklyAggregate df = Except.ok ws) ↔
        ∀ c ∈ requiredAggCols, hasColD df c = true) := by
  constructor
  · intro df col h
    unfold metric_value
    rw [if_neg]
    intro hc
    simp only [List.any_eq_true] at hc
    obtain ⟨r, hr, hsome⟩ := hc
    rw [h r hr] at hsome
    simp at hsome
  · intro df
    unfold weeklyAggregate
    by_cases hem : (requiredAggCols.filter (fun c => !hasColD df c)).isEmpty = true
    · rw [if_pos hem]
      simp only [List.isEmpty_iff, List.filter_eq_nil_iff] at hem
      constructor
      · intro _ c hc
        have := hem c hc
        simpa using this
      · intro _
        exact ⟨_, rfl⟩
    · rw [if_neg hem]
      constructor
      · intro hok
        obtain ⟨ws, hws⟩ := hok
        exact absurd hws (by simp)
      · intro hall
        exfalso
        apply hem
        simp only [List.isEmpty_iff, List.filter_eq_nil_iff]
        intro c hc
        simp [hall c hc]

/-- C9 witness: the amended theorem applied to a one-row table lacking
the queried column. -/
theorem metric_absent_amended_witness :
    metric_value [[("Gross Sales Before Discounts", (100 : ℚ))]] "Sales Net VAT" = 0 :=
  metric_absent_amended.1 [[("Gross Sales Before Discounts", (100 : ℚ))]] "Sales Net VAT"
    (by decide)

/-! Percentile thresholds and peak/slow classification. -/

theorem quantileLinear_cons (x : ℚ) (xs : List ℚ) (q : ℚ)
    (hs : List.insertionSort (fun a b : ℚ => a ≤ b) (x :: xs) = x :: xs) :
    quantileLinear (x :: xs) q =
      (x :: xs).getD ((Rat.floor (q * (((x :: xs).length : ℚ) - 1))).toNat) 0 +
        (q * (((x :: xs).length : ℚ) - 1)
          - (((Rat.floor (q * (((x :: xs).length : ℚ) - 1))).toNat : ℕ) : ℚ)) *
        ((x :: xs).getD ((Rat.floor (q * (((x :: xs).length : ℚ) - 1))).toNat + 1)
            ((x :: xs).getD ((Rat.floor (q * (((x :: xs).length : ℚ) - 1))).toNat) 0)
          - (x :: xs).getD ((Rat.floor (q * (((x :: xs).length : ℚ) - 1))).toNat) 0) := by
  unfold quantileLinear
  rw [hs]

theorem quantile_ex_high : quantileLinear exSlots (1 - 1/10) = 91 := by
  show quantileLinear (10 :: [20, 30, 40, 50, 60, 70, 80, 90, 100]) (1 - 1/10) = 91
  rw [quantileLinear_cons 10 [20, 30, 40, 50, 60, 70, 80, 90, 100] (1 - 1/10) (by decide)]
  have hf : Rat.floor ((1 - 1/10 : ℚ) *
      (((10 :: [20, 30, 40, 50, 60, 70, 80, 90, 100] : List ℚ).length : ℚ) - 1)) = 8 := by
    norm_num [Rat.floor_def']
  rw [hf]
  rw [show ((8 : ℤ).toNat) = 8 from rfl]
  rw [show ((10 :: [20, 30, 40, 50, 60, 70, 80, 90, 100] : List ℚ)).getD 8 0 = 90 from rfl]
  rw [show ((10 :: [20, 30, 40, 50, 60, 70, 80, 90, 100] : List ℚ)).getD (8 + 1) 90 = 100
    from rfl]
  norm_num

theorem quantile_ex_low : quantileLinear exSlots (1/5) = 28 := by
  show quantileLinear (10 :: [20, 30, 40, 50, 60, 70, 80, 90, 100]) (1/5) = 28
  rw [quantileLinear_cons 10 [20, 30, 40, 50, 60, 70, 80, 90, 100] (1/5) (by decide)]
  have hf : Rat.floor ((1/5 : ℚ) *
      (((10 :: [20, 30, 40, 50, 60, 70, 80, 90, 100] : List ℚ).length : ℚ) - 1)) = 1 := by
    norm_num [Rat.floor_def']
  rw [hf]
  rw [show ((1 : ℤ).toNat) = 1 from rfl]
  rw [show ((10 :: [20, 30, 40, 50, 60, 70, 80, 90, 100] : List ℚ)).getD 1 0 = 20 from rfl]
  rw [show ((10 :: [20, 30, 40, 50, 60, 70, 80, 90, 100] : List ℚ)).getD (1 + 1) 20 = 30
    from rfl]
  norm_num

theorem quantile_two_high : quantileLinear [(5 : ℚ), 5] (1 - 1/10) = 5 := by
  rw [quantileLinear_cons 5 [5] (1 - 1/10) (by decide)]
  have hf : Rat.floor ((1 - 1/10 : ℚ) * (((5 :: [5] : List ℚ).length : ℚ) - 1)) = 0 := by
    norm_num [Rat.floor_def']
  rw [hf]
  rw [show ((0 : ℤ).toNat) = 0 from rfl]
  rw [show ((5 :: [5] : List ℚ)).getD 0 0 = 5 from rfl]
  rw [show ((5 :: [5] : List ℚ)).getD (0 + 1) 5 = 5 from rfl]
  norm_num

theorem quantile_two_low : quantileLinear [(5 : ℚ), 5] (1/5) = 5 := by
  rw [quantileLinear_cons 5 [5] (1/5) (by decide)]
  have hf : Rat.floor ((1/5 : ℚ) * (((5 :: [5] : List ℚ).length : ℚ) - 1)) = 0 := by
    norm_num [Rat.floor_def']
  rw [hf]
  rw [show ((0 : ℤ).toNat) = 0 from rfl]
  rw [show ((5 :: [5] : List ℚ)).getD 0 0 = 5 from rfl]
  rw [show ((5 :: [5] : List ℚ)).getD (0 + 1) 5 = 5 from rfl]
  norm_num

/-- C6 counterexample: with p_top = 10% on slots [10..100] the linear
interpolation 90th percentile is 91, so the peak list of both program
variants is [100]; the claim's peak set {90, 100} is wrong, as 90 is not
in the produced list. -/
theorem peak_percentile_counterexample :
    peaksOf exSlots (1/10) = [100] ∧ (90 : ℚ) ∉ peaksOf exSlots (1/10) := by
  have hp : peaksOf exSlots (1/10) = [100] := by
    unfold peaksOf
    rw [quantile_ex_high]
    decide
  exact ⟨hp, by rw [hp]; decide⟩

/-- C6 amended: the peak list is the slots at or above the
`1 - p_top` linear-interpolation quantile sorted descending and the slow
list the slots at or below the `p_bottom` quantile sorted ascending; on
[10..100] with p_top = 10%, p_bottom = 20% the thresholds are 91 and 28,
giving peaks [100] (not {90, 100}) and slows [10, 20]; and whenever the
low threshold is at most the high one, a slot on both lists forces the
two thresholds to coincide. -/
theorem peak_slow_amended :
    peaksOf exSlots (1/10) = [100] ∧
    slowsOf exSlots (1/5) = [10, 20] ∧
    quantileLinear exSlots (1 - 1/10) = 91 ∧
    quantileLinear exSlots (1/5) = 28 ∧
    ∀ (xs : List ℚ) (pTop pBot s : ℚ),
      quantileLinear xs pBot ≤ quantileLinear xs (1 - pTop) →
      s ∈ peaksOf xs pTop → s ∈ slowsOf xs pBot →
      quantileLinear xs (1 - pTop) = quantileLinear xs pBot := by
  refine ⟨?_, ?_, quantile_ex_high, quantile_ex_low, ?_⟩
  · unfold peaksOf
    rw [quantile_ex_high]
    decide
  · unfold slowsOf
    rw [quantile_ex_low]
    decide
  · intro xs pTop pBot s hle hp hs
    unfold peaksOf at hp
    unfold slowsOf at hs
    have hp' := (List.perm_insertionSort (fun a b : ℚ => b ≤ a) _).mem_iff.mp hp
    have hs' := (List.perm_insertionSort (fun a b : ℚ => a ≤ b) _).mem_iff.mp hs
    rw [List.mem_filter] at hp' hs'
    have h1 : quantileLinear xs (1 - pTop) ≤ s := by
      have := hp'.2
      simpa using this
    have h2 : s ≤ quantileLinear xs pBot := by
      have := hs'.2
      simpa using this
    linarith

/-- C6 witness: with the two-element constant list [5, 5] both thresholds
equal 5, the slot value 5 is on both lists, and the amended theorem's
overlap clause applies. -/
theorem peak_slow_amended_witness :
    quantileLinear [(5 : ℚ), 5] (1 - 1/10) = quantileLinear [(5 : ℚ), 5] (1/5) := by
  apply peak_slow_amended.2.2.2.2 [(5 : ℚ), 5] (1/10) (1/5) 5
  · rw [quantile_two_low, quantile_two_high]
  · unfold peaksOf
    rw [quantile_two_high]
    decide
  · unfold slowsOf
    rw [quantile_two_low]
    decide
